import Mathlib

/-!
Formal model of the security middleware of a WhatsApp web API service:
webhook HMAC signing/verification and fan-out dispatch, a sliding-window
rate limiter, JWT-style token issuance/validation, and the authentication
middleware. Go strings and byte slices are modelled as `String` and
`List Nat` respectively; wall-clock instants are `Int` Unix seconds;
environment variables are passed explicitly (Go `os.Getenv` returns the
empty string when a variable is unset).
-/

/-- Byte view of a Go string (`[]byte(s)`), one `Nat` per character. -/
def strBytes (s : String) : List Nat := s.data.map Char.toNat

/-- Modelled from the spec: "HMAC-SHA256 over the exact bytes using the
shared secret" followed by its hex rendering (`crypto/hmac`,
`crypto/sha256`, `encoding/hex` are standard-library code, not under
`src/`).  Modelled as an idealised keyed digest that is injective in the
(key, message) pair, which is the correctness property the spec relies
on. -/
def hmacSha256 (key msg : List Nat) : List Nat := key.length :: (key ++ msg)

theorem hmacSha256_inj {k1 k2 m1 m2 : List Nat}
    (h : hmacSha256 k1 m1 = hmacSha256 k2 m2) : k1 = k2 ∧ m1 = m2 := by
  unfold hmacSha256 at h
  have hlen : k1.length = k2.length := (List.cons.injEq _ _ _ _ ▸ h).1
  have happ : k1 ++ m1 = k2 ++ m2 := (List.cons.injEq _ _ _ _ ▸ h).2
  have hk : k1 = k2 := by
    have h2 := congrArg (List.take k1.length) happ
    rwa [List.take_left, hlen, List.take_left] at h2
  subst hk
  exact ⟨rfl, List.append_cancel_left happ⟩

theorem hmacSha256_ne_nil (key msg : List Nat) : hmacSha256 key msg ≠ [] := by
  simp [hmacSha256]

/-- Go `strings.TrimPrefix` on byte strings: drop `pre` if it is a prefix,
otherwise return the input unchanged. -/
def trimPre (pre l : List Nat) : List Nat :=
  if pre.isPrefixOf l then l.drop pre.length else l

theorem trimPre_append (pre x : List Nat) : trimPre pre (pre ++ x) = x := by
  unfold trimPre
  rw [if_pos, List.drop_left]
  exact List.isPrefixOf_iff_prefix.mpr ⟨x, rfl⟩

/-! ## Webhook signer (src/unnamed/part_003, verifyWebhookSignature /
sendSingleWebhook) -/

/-- The `"sha256="` algorithm marker used in the `X-Hub-Signature-256`
header. -/
def sha256Marker : List Nat := strBytes "sha256="

/-- Hardcoded fallback used when `WHATSAPP_WEBHOOK_SECRET` is unset. -/
def defaultWebhookSecret : String := "super-secret-webhook-key"

/-- Secret selection of `verifyWebhookSignature`/`sendSingleWebhook`:
the `WHATSAPP_WEBHOOK_SECRET` environment value, or the fallback when
empty. -/
def webhookSecret (env : String) : String :=
  if env = "" then defaultWebhookSecret else env

/-- `verifyWebhookSignature` from src/unnamed/part_003 lines 227-247:
reject an empty header value, strip an optional `sha256=` marker,
recompute the digest over the payload bytes and compare
(`hmac.Equal`). -/
def verifyWebhookSignature (env : String) (signature payload : List Nat) : Bool :=
  if signature = [] then false
  else decide
    (trimPre sha256Marker signature = hmacSha256 (strBytes (webhookSecret env)) payload)

/-- The `X-Hub-Signature-256` header value attached by `sendSingleWebhook`
(src/unnamed/part_003 lines 347-355): `"sha256=" + hex digest` of the
serialized payload. -/
def sendWebhookSignatureHeader (env : String) (payload : List Nat) : List Nat :=
  sha256Marker ++ hmacSha256 (strBytes (webhookSecret env)) payload

/-- C3: for every payload, `verify(sign(payload), payload)` is true;
`verify` is false whenever the presented payload differs from the signed
one; and an absent or empty header value (Go `Header.Get` yields `""`)
always fails verification. -/
theorem verifyWebhookSignature_correct (env : String) (payload : List Nat) :
    verifyWebhookSignature env (sendWebhookSignatureHeader env payload) payload = true
    ∧ (∀ p2 : List Nat, p2 ≠ payload →
        verifyWebhookSignature env (sendWebhookSignatureHeader env payload) p2 = false)
    ∧ verifyWebhookSignature env [] payload = false := by
  refine ⟨?_, ?_, rfl⟩
  · unfold verifyWebhookSignature sendWebhookSignatureHeader
    rw [if_neg, trimPre_append]
    · simp
    · intro hnil
      exact hmacSha256_ne_nil _ _ (List.append_eq_nil.mp hnil).2
  · intro p2 hne
    unfold verifyWebhookSignature sendWebhookSignatureHeader
    rw [if_neg, trimPre_append]
    · simp only [decide_eq_false_iff_not]
      intro heq
      exact hne (hmacSha256_inj heq).2.symm
    · intro hnil
      exact hmacSha256_ne_nil _ _ (List.append_eq_nil.mp hnil).2

/-- Witness for C3 at a concrete secret and payload: signing the bytes of
`"ab"` verifies against the same bytes and fails against the bytes of
`"ac"`. -/
theorem verifyWebhookSignature_correct_witness :
    verifyWebhookSignature "s3cr3t"
      (sendWebhookSignatureHeader "s3cr3t" (strBytes "ab")) (strBytes "ab") = true
    ∧ verifyWebhookSignature "s3cr3t"
      (sendWebhookSignatureHeader "s3cr3t" (strBytes "ab")) (strBytes "ac") = false :=
  ⟨(verifyWebhookSignature_correct "s3cr3t" (strBytes "ab")).1,
   (verifyWebhookSignature_correct "s3cr3t" (strBytes "ab")).2.1 (strBytes "ac") (by decide)⟩

/-! ## Webhook dispatcher (src/unnamed/part_003, getWebhookURLs /
sendToWebhookURLs / sendSingleWebhook) -/

/-- Go `strings.Split` for a one-character separator, on character lists:
`split "" = [""]`, and separators delimit (possibly empty) fields. -/
def splitOnChar (sep : Char) : List Char → List (List Char)
  | [] => [[]]
  | c :: rest =>
    if c = sep then [] :: splitOnChar sep rest
    else
      match splitOnChar sep rest with
      | [] => [[c]]
      | h :: t => (c :: h) :: t

/-- Go `strings.TrimSpace` on character lists: drop leading and trailing
whitespace. -/
def trimSpaceChars (l : List Char) : List Char :=
  ((l.dropWhile Char.isWhitespace).reverse.dropWhile Char.isWhitespace).reverse

/-- Go `strings.TrimSpace`. -/
def trimSpace (s : String) : String := ⟨trimSpaceChars s.data⟩

/-- `getWebhookURLs` from src/unnamed/part_003 lines 379-395: read the
comma-separated `WHATSAPP_WEBHOOK` value, trim each entry, and keep the
non-empty ones (unset variable yields no destinations). -/
def getWebhookURLs (env : String) : List String :=
  if env = "" then []
  else ((splitOnChar ',' env.data).map (fun l => trimSpace ⟨l⟩)).filter
    (fun s => s ≠ "")

/-- Per-destination outcome of `sendSingleWebhook`: the Go code builds a
result map with keys `url`, `success`, `timestamp`, and optionally
`status_code` and `error`. -/
structure DeliveryResult where
  url : String
  success : Bool
  statusCode : Option Int
  timestamp : Int
  error : Option String
deriving DecidableEq

/-- `sendSingleWebhook` from src/unnamed/part_003 lines 322-377, with the
HTTP transport abstracted as an oracle `http : url → Option status`
(`none` = transport error).  Success is exactly a status in [200, 300);
any transport error or non-2xx status is recorded in the `error` field of
the result, never thrown. -/
def sendSingleWebhook (http : String → Option Int) (now : Int)
    (url : String) : DeliveryResult :=
  match http url with
  | none =>
    { url := url, success := false, statusCode := none, timestamp := now,
      error := some "Request failed" }
  | some code =>
    if 200 ≤ code ∧ code < 300 then
      { url := url, success := true, statusCode := some code, timestamp := now,
        error := none }
    else
      { url := url, success := false, statusCode := some code, timestamp := now,
        error := some ("HTTP " ++ toString code) }

/-- `sendToWebhookURLs` from src/unnamed/part_003 lines 306-320: error out
when no destination is configured, otherwise deliver to every destination
in order and collect the per-destination results. -/
def sendToWebhookURLs (http : String → Option Int) (now : Int)
    (env : String) : Except String (List DeliveryResult) :=
  let urls := getWebhookURLs env
  if urls = [] then Except.error "no webhook URLs configured"
  else Except.ok (urls.map (sendSingleWebhook http now))

/-- C4: with destinations configured, dispatch returns one result per
destination in order (each depending only on its own destination, so one
failure cannot affect the others), marked successful exactly when an HTTP
status in [200, 300) was received, and carrying an error description
otherwise; with no destinations configured, dispatch fails and produces
no results. -/
theorem sendToWebhookURLs_correct (http : String → Option Int) (now : Int)
    (env : String) :
    (getWebhookURLs env = [] →
      sendToWebhookURLs http now env = Except.error "no webhook URLs configured")
    ∧ (getWebhookURLs env ≠ [] →
      sendToWebhookURLs http now env
        = Except.ok ((getWebhookURLs env).map (sendSingleWebhook http now))
      ∧ ((getWebhookURLs env).map (sendSingleWebhook http now)).length
        = (getWebhookURLs env).length)
    ∧ (∀ url : String, (sendSingleWebhook http now url).url = url
      ∧ ((sendSingleWebhook http now url).success = true
          ↔ ∃ code : Int, http url = some code ∧ 200 ≤ code ∧ code < 300)
      ∧ ((sendSingleWebhook http now url).success = false →
          (sendSingleWebhook http now url).error ≠ none)) := by
  refine ⟨fun h => by simp [sendToWebhookURLs, h], fun h => ⟨by simp [sendToWebhookURLs, h], by simp⟩, fun url => ?_⟩
  unfold sendSingleWebhook
  cases hc : http url with
  | none => simp
  | some code =>
    by_cases h2 : 200 ≤ code ∧ code < 300
    · simp [h2]
    · simp [h2]

/-- Witness for C4: with `WHATSAPP_WEBHOOK="a, b ,c"` (three destinations
after trimming) and a transport where only `b` answers a non-2xx status,
dispatch yields three results with exactly the second unsuccessful. -/
theorem sendToWebhookURLs_correct_witness :
    getWebhookURLs "a, b ,c" = ["a", "b", "c"]
    ∧ sendToWebhookURLs
        (fun u => if u = "b" then some 500 else some 204) 7 "a, b ,c"
      = Except.ok
        [{ url := "a", success := true, statusCode := some 204, timestamp := 7,
           error := none },
         { url := "b", success := false, statusCode := some 500, timestamp := 7,
           error := some "HTTP 500" },
         { url := "c", success := true, statusCode := some 204, timestamp := 7,
           error := none }] := by
  have h := (sendToWebhookURLs_correct
    (fun u => if u = "b" then some 500 else some 204) 7 "a, b ,c").2.1 (by decide)
  exact ⟨by decide, by rw [h.1]; exact congrArg Except.ok (by decide)⟩

/-! ## Rate limiter (src/api/middleware.go, RateLimiter.Allow) -/

/-- `RateLimiter` from src/api/middleware.go lines 14-19: per-identifier
request-timestamp history plus a fixed quota and window.  The Go map is
modelled as a total function (a missing key reads as the empty list,
matching the code's get-or-create); the mutex serialises `Allow`, so the
sequential model below is the whole behaviour. -/
structure RateLimiter where
  limit : Nat
  window : Int
  requests : String → List Int

/-- `NewRateLimiter` (lines 45-51): empty history. -/
def NewRateLimiter (limit : Nat) (window : Int) : RateLimiter :=
  { limit := limit, window := window, requests := fun _ => [] }

/-- `RateLimiter.Allow` (lines 54-86): prune the identifier's timestamps
to those strictly inside the window, reject (persisting only the pruned
list) when the quota is already met, otherwise append `now` and admit. -/
def RateLimiter.Allow (rl : RateLimiter) (now : Int) (identifier : String) :
    Bool × RateLimiter :=
  let windowStart := now - rl.window
  let validRequests := (rl.requests identifier).filter
    (fun reqTime => windowStart < reqTime)
  if rl.limit ≤ validRequests.length then
    (false, { rl with requests :=
      fun i => if i = identifier then validRequests else rl.requests i })
  else
    (true, { rl with requests :=
      fun i => if i = identifier then validRequests ++ [now] else rl.requests i })

/-- Sequential execution of a list of `(time, identifier)` admission
checks, returning the admission decisions in order and the final state. -/
def runCalls (rl : RateLimiter) : List (Int × String) → List Bool × RateLimiter
  | [] => ([], rl)
  | (t, id) :: rest =>
    let r := rl.Allow t id
    let r2 := runCalls r.2 rest
    (r.1 :: r2.1, r2.2)


theorem RateLimiter.Allow_fst (rl : RateLimiter) (now : Int) (id : String) :
    (rl.Allow now id).1
      = decide (((rl.requests id).filter
          (fun x => now - rl.window < x)).length < rl.limit) := by
  simp only [RateLimiter.Allow]
  split
  · next h => simp [decide_eq_false (Nat.not_lt.mpr h)]
  · next h =>
    have h2 := Nat.lt_of_not_le h
    simp [h2]

theorem RateLimiter.Allow_requests_self (rl : RateLimiter) (now : Int) (id : String) :
    (rl.Allow now id).2.requests id
      = (if rl.limit ≤ ((rl.requests id).filter
            (fun x => now - rl.window < x)).length
         then (rl.requests id).filter (fun x => now - rl.window < x)
         else (rl.requests id).filter (fun x => now - rl.window < x) ++ [now]) := by
  simp only [RateLimiter.Allow]
  split
  · next h => simp [h]
  · next h => simp [h]

theorem RateLimiter.Allow_requests_other (rl : RateLimiter) (now : Int)
    (id i2 : String) (h : i2 ≠ id) :
    (rl.Allow now id).2.requests i2 = rl.requests i2 := by
  simp only [RateLimiter.Allow]
  split <;> simp [h]

theorem RateLimiter.Allow_limit (rl : RateLimiter) (now : Int) (id : String) :
    (rl.Allow now id).2.limit = rl.limit := by
  simp only [RateLimiter.Allow]
  split <;> rfl

theorem RateLimiter.Allow_window (rl : RateLimiter) (now : Int) (id : String) :
    (rl.Allow now id).2.window = rl.window := by
  simp only [RateLimiter.Allow]
  split <;> rfl

theorem runCalls_append (rl : RateLimiter) (xs ys : List (Int × String)) :
    runCalls rl (xs ++ ys)
      = ((runCalls rl xs).1 ++ (runCalls (runCalls rl xs).2 ys).1,
         (runCalls (runCalls rl xs).2 ys).2) := by
  induction xs generalizing rl with
  | nil => simp [runCalls]
  | cons p rest ih => cases p with | mk t id => simp [runCalls, ih]

theorem length_filter_lt_of_mem {α : Type} {p : α → Bool} {l : List α} {a : α}
    (ha : a ∈ l) (hpa : p a = false) : (l.filter p).length < l.length := by
  induction l with
  | nil => cases ha
  | cons b t ih =>
    rcases List.mem_cons.mp ha with rfl | hmem
    · rw [List.filter_cons_of_neg (by simp [hpa])]
      have h1 := List.length_filter_le p t
      simp only [List.length_cons]
      omega
    · cases hpb : p b with
      | false =>
        rw [List.filter_cons_of_neg (by simp [hpb])]
        have h1 := ih hmem
        simp only [List.length_cons]
        omega
      | true =>
        rw [List.filter_cons_of_pos (by simp [hpb])]
        have h1 := ih hmem
        simp only [List.length_cons]
        omega

/-- While the quota is not yet met and all calls fall within one window of
each other (and of any retained history), every admission check succeeds
and the history grows by exactly the call's timestamp; nothing else in
the state changes. -/
theorem runCalls_admit_phase (window : Int) (id : String) :
    ∀ (ts : List Int) (rl : RateLimiter),
      rl.window = window →
      (rl.requests id).length + ts.length ≤ rl.limit →
      (∀ t ∈ ts, ∀ x ∈ rl.requests id, t - window < x) →
      List.Pairwise (fun a b => b - a < window) ts →
      (runCalls rl (ts.map (fun t => (t, id)))).1 = List.replicate ts.length true
      ∧ (runCalls rl (ts.map (fun t => (t, id)))).2.requests id
          = rl.requests id ++ ts
      ∧ (runCalls rl (ts.map (fun t => (t, id)))).2.limit = rl.limit
      ∧ (runCalls rl (ts.map (fun t => (t, id)))).2.window = rl.window
      ∧ (∀ i2, i2 ≠ id →
          (runCalls rl (ts.map (fun t => (t, id)))).2.requests i2
            = rl.requests i2) := by
  intro ts
  induction ts with
  | nil => intro rl _ _ _ _; simp [runCalls]
  | cons t rest ih =>
    intro rl hw hlen hsurv hpair
    have hfilter : (rl.requests id).filter (fun x => decide (t - rl.window < x))
        = rl.requests id := by
      rw [List.filter_eq_self]
      intro a ha
      rw [hw]
      exact decide_eq_true (hsurv t (List.mem_cons_self t rest) a ha)
    have hlt : (rl.requests id).length < rl.limit := by
      simp only [List.length_cons] at hlen
      omega
    have hcall : rl.Allow t id
        = (true, { rl with requests :=
            fun i => if i = id then rl.requests id ++ [t] else rl.requests i }) := by
      simp only [RateLimiter.Allow]
      rw [hfilter, if_neg (Nat.not_le.mpr hlt)]
    set rl2 : RateLimiter := { rl with requests :=
      fun i => if i = id then rl.requests id ++ [t] else rl.requests i } with hrl2
    have hreq2 : rl2.requests id = rl.requests id ++ [t] := by
      rw [hrl2]
      simp
    have hw2 : rl2.window = window := hw
    have hlen2 : (rl2.requests id).length + rest.length ≤ rl2.limit := by
      rw [hreq2]
      have hlimeq : rl2.limit = rl.limit := rfl
      rw [hlimeq]
      simp only [List.length_append, List.length_cons, List.length_nil] at hlen ⊢
      omega
    have hsurv2 : ∀ t2 ∈ rest, ∀ x ∈ rl2.requests id, t2 - window < x := by
      intro t2 ht2 x hx
      rw [hreq2] at hx
      rcases List.mem_append.mp hx with hx2 | hx2
      · exact hsurv t2 (List.mem_cons_of_mem t ht2) x hx2
      · rcases List.mem_singleton.mp hx2 with rfl
        have hp := (List.pairwise_cons.mp hpair).1 t2 ht2
        omega
    have hih := ih rl2 hw2 hlen2 hsurv2 (List.pairwise_cons.mp hpair).2
    refine ⟨?_, ?_, ?_, ?_, ?_⟩
    · simp only [List.map_cons, runCalls, hcall, hih.1, List.length_cons,
        List.replicate_succ]
    · simp only [List.map_cons, runCalls, hcall]
      rw [hih.2.1, hreq2, List.append_assoc]
      rfl
    · simp only [List.map_cons, runCalls, hcall]
      rw [hih.2.2.1]
    · simp only [List.map_cons, runCalls, hcall]
      rw [hih.2.2.2.1]
    · intro i2 h2
      simp only [List.map_cons, runCalls, hcall]
      rw [hih.2.2.2.2 i2 h2, hrl2]
      simp [h2]

/-- C2: from a fresh limiter, `limit` admission checks for one identifier
all within one window succeed; the `limit+1`-th check still within the
window of every recorded request is rejected; and a check performed once
the window has elapsed since the first request is admitted again. -/
theorem rateLimiter_sliding_window (limit : Nat) (window : Int) (id : String)
    (ts : List Int) (t1 t6 t7 : Int)
    (hlim : 0 < limit)
    (hlen : ts.length = limit)
    (hhead : ts.head? = some t1)
    (hpair : List.Pairwise (fun a b => b - a < window) ts)
    (h6 : ∀ x ∈ ts, t6 - window < x)
    (h7 : t1 + window ≤ t7) :
    (runCalls (NewRateLimiter limit window)
      (ts.map (fun t => (t, id)) ++ [(t6, id), (t7, id)])).1
    = List.replicate limit true ++ [false, true] := by
  have hphase := runCalls_admit_phase window id ts (NewRateLimiter limit window)
    rfl (by simp [NewRateLimiter, hlen]) (by simp [NewRateLimiter]) hpair
  rw [runCalls_append]
  set s1 := (runCalls (NewRateLimiter limit window)
    (ts.map (fun t => (t, id)))).2 with hs1
  have hreq1 : s1.requests id = ts := by
    rw [hphase.2.1]
    simp [NewRateLimiter]
  have hlim1 : s1.limit = limit := hphase.2.2.1
  have hwin1 : s1.window = window := hphase.2.2.2.1
  have hf6 : (s1.requests id).filter (fun x => decide (t6 - s1.window < x)) = ts := by
    rw [hreq1, hwin1, List.filter_eq_self]
    intro a ha
    exact decide_eq_true (h6 a ha)
  have hfst6 : (s1.Allow t6 id).1 = false := by
    rw [RateLimiter.Allow_fst, hf6, hlim1, hlen]
    simp
  have hreq6 : (s1.Allow t6 id).2.requests id = ts := by
    rw [RateLimiter.Allow_requests_self, hf6, if_pos]
    rw [hlim1, hlen]
  have hw2 : (s1.Allow t6 id).2.window = window :=
    (RateLimiter.Allow_window s1 t6 id).trans hwin1
  have hl2 : (s1.Allow t6 id).2.limit = limit :=
    (RateLimiter.Allow_limit s1 t6 id).trans hlim1
  have h1mem : t1 ∈ ts := by
    rcases ts with _ | ⟨h, tl⟩
    · cases hhead
    · cases hhead
      exact List.mem_cons_self _ _
  have hcnt : (((s1.Allow t6 id).2.requests id).filter
      (fun x => decide (t7 - (s1.Allow t6 id).2.window < x))).length < limit := by
    rw [hreq6, hw2]
    have := length_filter_lt_of_mem (p := fun x => decide (t7 - window < x))
      h1mem (decide_eq_false (by omega))
    omega
  have hfst7 : ((s1.Allow t6 id).2.Allow t7 id).1 = true := by
    rw [RateLimiter.Allow_fst, hl2]
    exact decide_eq_true hcnt
  rw [hphase.1, hlen]
  simp only [runCalls, hfst6, hfst7]

/-- Witness for C2, the concrete scenario: limit 5, window 60 s; five
admissions for "1.2.3.4" at time 0 all return true, the sixth (still at
time 0) returns false, and a seventh after a 61-second clock advance
returns true again. -/
theorem rateLimiter_sliding_window_witness :
    (runCalls (NewRateLimiter 5 60)
      [((0 : Int), "1.2.3.4"), (0, "1.2.3.4"), (0, "1.2.3.4"), (0, "1.2.3.4"),
       (0, "1.2.3.4"), (0, "1.2.3.4"), (61, "1.2.3.4")]).1
    = [true, true, true, true, true, false, true] := by
  have h := rateLimiter_sliding_window 5 60 "1.2.3.4" [0, 0, 0, 0, 0] 0 0 61
    (by decide) (by decide) (by decide) (by decide) (by decide) (by decide)
  exact h

/-- C7: a rejected admission persists exactly the pruned (window-filtered)
history — the rejected call's own timestamp is not appended, so a
rejected request never consumes quota — and leaves every other
identifier's state untouched. -/
theorem rateLimiter_reject_preserves (rl : RateLimiter) (now : Int) (id : String)
    (h : (rl.Allow now id).1 = false) :
    (rl.Allow now id).2.requests id
      = (rl.requests id).filter (fun x => now - rl.window < x)
    ∧ ∀ i2, i2 ≠ id → (rl.Allow now id).2.requests i2 = rl.requests i2 := by
  have hfst := RateLimiter.Allow_fst rl now id
  rw [h] at hfst
  have hnotlt := of_decide_eq_false hfst.symm
  refine ⟨?_, fun i2 h2 => RateLimiter.Allow_requests_other rl now id i2 h2⟩
  rw [RateLimiter.Allow_requests_self, if_pos (Nat.le_of_not_lt hnotlt)]

/-- Witness for C7: a limiter with limit 1 and window 60 holding timestamp
5 for "a" rejects a request at time 6; afterwards the entry for "a" is
still exactly [5] (the rejection consumed no quota) and "b" is
untouched. -/
def rejectScenarioState : RateLimiter :=
  { limit := 1
    window := 60
    requests := fun i => if i = "a" then [5] else [] }

theorem rateLimiter_reject_preserves_witness :
    ((rejectScenarioState.Allow 6 "a").1 = false)
    ∧ ((rejectScenarioState.Allow 6 "a").2.requests "a" = [5])
    ∧ ((rejectScenarioState.Allow 6 "a").2.requests "b" = []) := by
  have h := rateLimiter_reject_preserves rejectScenarioState 6 "a" (by decide)
  refine ⟨by decide, ?_, ?_⟩
  · rw [h.1]
    decide
  · rw [h.2 "b" (by decide)]
    decide

/-- C8 counterexample: the claimed invariant fails between operations on a
window-60 limiter.  After the call trace [(time 0, "a"), (time 100, "b")]
— so "now" is 100 — the stored entry for the untouched identifier "a"
still holds timestamp 0, which lies outside [now - window, now] = [40,
100]: pruning is lazy and does not keep idle entries inside the
window. -/
theorem rateLimiter_window_invariant_cex :
    (0 : Int) ∈ (runCalls (NewRateLimiter 100 60)
      [((0 : Int), "a"), (100, "b")]).2.requests "a"
    ∧ ¬ ((100 : Int) - 60 ≤ 0) := by
  exact ⟨by decide, by decide⟩

/-- C8 (amended): immediately after an admission check for `id` at time
`now` (positive window, no future timestamps stored for `id`), the stored
entry for `id` contains only timestamps in (now - window, now]; entries
of other identifiers are not touched — they are pruned only on their own
next check. -/
theorem rateLimiter_entry_window (rl : RateLimiter) (now : Int) (id : String)
    (hw : 0 < rl.window)
    (hpast : ∀ x ∈ rl.requests id, x ≤ now) :
    (∀ x ∈ (rl.Allow now id).2.requests id, now - rl.window < x ∧ x ≤ now)
    ∧ ∀ i2, i2 ≠ id → (rl.Allow now id).2.requests i2 = rl.requests i2 := by
  refine ⟨?_, fun i2 h2 => RateLimiter.Allow_requests_other rl now id i2 h2⟩
  intro x hx
  rw [RateLimiter.Allow_requests_self] at hx
  split at hx
  · rcases List.mem_filter.mp hx with ⟨hmem, hdec⟩
    exact ⟨of_decide_eq_true hdec, hpast x hmem⟩
  · rcases List.mem_append.mp hx with hx2 | hx2
    · rcases List.mem_filter.mp hx2 with ⟨hmem, hdec⟩
      exact ⟨of_decide_eq_true hdec, hpast x hmem⟩
    · rcases List.mem_singleton.mp hx2 with rfl
      exact ⟨by omega, le_refl x⟩

/-- Witness for C8 (amended) at a concrete state: after an admission check
at time 60 on an entry holding [-100, 50], the retained timestamp 50 lies
in (now - window, now], and the untouched identifier "b" keeps its
(empty) entry. -/
def entryWindowScenarioState : RateLimiter :=
  { limit := 10
    window := 60
    requests := fun i => if i = "a" then [-100, 50] else [] }

theorem rateLimiter_entry_window_witness :
    ((60 : Int) - 60 < 50 ∧ (50 : Int) ≤ 60)
    ∧ ((entryWindowScenarioState.Allow 60 "a").2.requests "b" = []) := by
  have h := rateLimiter_entry_window entryWindowScenarioState 60 "a"
    (by decide) (by decide)
  refine ⟨h.1 50 (by decide), ?_⟩
  rw [h.2 "b" (by decide)]
  decide

/-! ## Client identification (src/api/middleware.go, getClientIP /
RateLimitMiddleware) -/

/-- The `RemoteAddr` truncation of `getClientIP`: Go
`strings.LastIndex(ip, ":")` followed by `ip[:colon]`, or the input
unchanged when it has no colon. -/
def stripPort (s : String) : String :=
  match s.data.reverse.findIdx? (fun c => c = ':') with
  | none => s
  | some j => ⟨s.data.take (s.data.length - 1 - j)⟩

/-- `getClientIP` from src/api/middleware.go lines 242-262, on the three
request fields it reads (`Header.Get` yields `""` for an absent header):
first comma-separated X-Forwarded-For entry, trimmed; else X-Real-IP;
else RemoteAddr without its port. -/
def getClientIP (xff xri remoteAddr : String) : String :=
  if xff ≠ "" then trimSpace ⟨(splitOnChar ',' xff.data).headD []⟩
  else if xri ≠ "" then xri
  else stripPort remoteAddr

/-- The admission decision of `RateLimitMiddleware` (src/api/middleware.go
lines 112-132): the limiter keyed by `getClientIP`; a `false` verdict
produces the 429 response. -/
def rateLimitMiddlewareAllow (rl : RateLimiter) (now : Int)
    (xff xri remoteAddr : String) : Bool × RateLimiter :=
  rl.Allow now (getClientIP xff xri remoteAddr)

/-- C10: the rate-limit identifier is caller-controlled: it is the trimmed
first comma-separated X-Forwarded-For entry when that header is
non-empty, else the X-Real-IP value when non-empty, else RemoteAddr
truncated at its last colon; consequently a caller that sets
X-Forwarded-For selects its own rate-limit bucket regardless of its true
network address. -/
theorem getClientIP_spec (xff xri remoteAddr : String) :
    (xff ≠ "" → getClientIP xff xri remoteAddr
        = trimSpace ⟨(splitOnChar ',' xff.data).headD []⟩)
    ∧ (xff = "" → xri ≠ "" → getClientIP xff xri remoteAddr = xri)
    ∧ (xff = "" → xri = "" → getClientIP xff xri remoteAddr = stripPort remoteAddr)
    ∧ (∀ (rl : RateLimiter) (now : Int) (xri2 remote2 : String), xff ≠ "" →
        rateLimitMiddlewareAllow rl now xff xri remoteAddr
          = rateLimitMiddlewareAllow rl now xff xri2 remote2) := by
  have hxffCase : ∀ a b : String, xff ≠ "" → getClientIP xff a b
      = trimSpace ⟨(splitOnChar ',' xff.data).headD []⟩ := by
    intro a b hx
    unfold getClientIP
    rw [if_pos hx]
  refine ⟨hxffCase xri remoteAddr, ?_, ?_, ?_⟩
  · intro h1 h2
    unfold getClientIP
    rw [if_neg (by simp [h1]), if_pos h2]
  · intro h1 h2
    unfold getClientIP
    rw [if_neg (by simp [h1]), if_neg (by simp [h2])]
  · intro rl now xri2 remote2 hx
    unfold rateLimitMiddlewareAllow
    rw [hxffCase xri remoteAddr hx, hxffCase xri2 remote2 hx]

/-- Witness for C10 at concrete headers: with
`X-Forwarded-For: "9.9.9.9, 10.0.0.0"` the bucket is "9.9.9.9" whatever
the socket address says; without it, X-Real-IP and then the
port-stripped RemoteAddr are used. -/
theorem getClientIP_spec_witness :
    getClientIP "9.9.9.9, 10.0.0.0" "8.8.8.8" "1.2.3.4:80" = "9.9.9.9"
    ∧ getClientIP "" "8.8.8.8" "1.2.3.4:80" = "8.8.8.8"
    ∧ getClientIP "" "" "1.2.3.4:80" = "1.2.3.4"
    ∧ rateLimitMiddlewareAllow (NewRateLimiter 5 60) 0
        "9.9.9.9, 10.0.0.0" "8.8.8.8" "1.2.3.4:80"
      = rateLimitMiddlewareAllow (NewRateLimiter 5 60) 0
        "9.9.9.9, 10.0.0.0" "7.7.7.7" "5.6.7.8:99" := by
  have h := getClientIP_spec "9.9.9.9, 10.0.0.0" "8.8.8.8" "1.2.3.4:80"
  have h0 := getClientIP_spec "" "8.8.8.8" "1.2.3.4:80"
  have h00 := getClientIP_spec "" "" "1.2.3.4:80"
  refine ⟨?_, ?_, ?_, ?_⟩
  · rw [h.1 (by decide)]
    decide
  · rw [h0.2.1 rfl (by decide)]
  · rw [h00.2.2.1 rfl rfl]
    decide
  · exact h.2.2.2 (NewRateLimiter 5 60) 0 "7.7.7.7" "5.6.7.8:99" (by decide)

/-! ## Token service (src/api/auth.go: Claims, generateTokens,
validateJWTToken, getUserRole, generateUserID) -/

/-- `Claims` from src/api/auth.go lines 22-27: user id, username and role
plus the registered temporal claims (issued-at, expires-at, not-before)
and the issuer. -/
structure Claims where
  userID : String
  username : String
  role : String
  iat : Int
  exp : Int
  nbf : Int
  issuer : String
deriving DecidableEq

/-- Length-prefixed byte encoding of one string field of the claims. -/
def encStr (s : String) : List Nat := s.data.length :: strBytes s

/-- Sign-and-magnitude byte encoding of one integer field. -/
def encInt : Int → List Nat
  | Int.ofNat n => [0, n]
  | Int.negSucc n => [1, n]

/-- Modelled from the spec: the claim payload serialization used inside
the token (the JSON/base64url serialization of the golang-jwt library is
not under `src/`); a length-prefixed field-by-field byte encoding. -/
def encodeClaims (c : Claims) : List Nat :=
  encStr c.userID ++ encStr c.username ++ encStr c.role
    ++ encInt c.iat ++ encInt c.exp ++ encInt c.nbf ++ encStr c.issuer

/-- Decoder for one length-prefixed string field; fails on truncated
input. -/
def decStr : List Nat → Option (String × List Nat)
  | [] => none
  | n :: rest =>
    if n ≤ rest.length then
      some (⟨(rest.take n).map (fun b => Char.ofNat b)⟩, rest.drop n)
    else none

/-- Decoder for one integer field. -/
def decInt : List Nat → Option (Int × List Nat)
  | 0 :: n :: rest => some (Int.ofNat n, rest)
  | 1 :: n :: rest => some (Int.negSucc n, rest)
  | _ => none

/-- Modelled from the spec: payload deserialization back into the claim
shape; fails (`Malformed`) when the bytes cannot be decoded into the
expected claim shape. -/
def decodeClaims (l : List Nat) : Option Claims := do
  let (uid, l1) ← decStr l
  let (uname, l2) ← decStr l1
  let (role, l3) ← decStr l2
  let (iatv, l4) ← decInt l3
  let (expv, l5) ← decInt l4
  let (nbfv, l6) ← decInt l5
  let (iss, l7) ← decStr l6
  if l7 = [] then
    some { userID := uid, username := uname, role := role, iat := iatv,
           exp := expv, nbf := nbfv, issuer := iss }
  else none

theorem decStr_encStr (s : String) (r : List Nat) :
    decStr (encStr s ++ r) = some (s, r) := by
  have h1 : encStr s ++ r = s.data.length :: (strBytes s ++ r) := rfl
  rw [h1]
  simp only [decStr]
  have hlen : (strBytes s).length = s.data.length := by
    simp [strBytes]
  rw [if_pos (by simp [List.length_append, hlen])]
  have htake : (strBytes s ++ r).take s.data.length = strBytes s :=
    List.take_left' hlen
  have hdrop : (strBytes s ++ r).drop s.data.length = r :=
    List.drop_left' hlen
  rw [htake, hdrop]
  have hmap : (strBytes s).map (fun b => Char.ofNat b) = s.data := by
    simp [strBytes, List.map_map, Function.comp_def]
  rw [hmap]

theorem decStr_encStr_nil (s : String) : decStr (encStr s) = some (s, []) := by
  have h := decStr_encStr s []
  rwa [List.append_nil] at h

theorem decInt_encInt (i : Int) (r : List Nat) :
    decInt (encInt i ++ r) = some (i, r) := by
  cases i with
  | ofNat n => rfl
  | negSucc n => rfl

theorem decodeClaims_encodeClaims (c : Claims) :
    decodeClaims (encodeClaims c) = some c := by
  unfold decodeClaims encodeClaims
  simp only [List.append_assoc, decStr_encStr, decInt_encInt, decStr_encStr_nil,
    Option.bind_eq_bind, Option.some_bind]
  simp

/-- The validation error kinds of the spec taxonomy. -/
inductive TokenError where
  | invalidSignature
  | expired
  | notYetValid
  | malformed
deriving DecidableEq

/-- Modelled from the spec:
`jwt.NewWithClaims(jwt.SigningMethodHS256, claims).SignedString(jwtSecret)`
(the golang-jwt library is not under `src/`) — "an opaque signed string
encoding Identity Claims plus a signature".  The serialized payload is
length-prefixed so that a parser can split payload from signature. -/
def mkToken (secret : List Nat) (c : Claims) : List Nat :=
  (encodeClaims c).length
    :: (encodeClaims c ++ hmacSha256 secret (encodeClaims c))

/-- `validateJWTToken` from src/api/auth.go lines 302-320, with the
parsing and verification performed by `jwt.ParseWithClaims` modelled from
the spec: the signature must verify against the single shared secret and
`not-before ≤ now < expires-at` must hold, or the token is rejected
(`Malformed` when the string cannot be decoded into the claim shape). -/
def validateJWTToken (secret : List Nat) (token : List Nat) (now : Int) :
    Except TokenError Claims :=
  match token with
  | [] => Except.error TokenError.malformed
  | n :: rest =>
    if rest.drop n = hmacSha256 secret (rest.take n) then
      match decodeClaims (rest.take n) with
      | none => Except.error TokenError.malformed
      | some c =>
        if now < c.nbf then Except.error TokenError.notYetValid
        else if c.exp ≤ now then Except.error TokenError.expired
        else Except.ok c
    else Except.error TokenError.invalidSignature

/-- `getUserRole` from src/api/auth.go lines 332-338: the distinguished
username "admin" gets the admin role, everything else the user role. -/
def getUserRole (username : String) : String :=
  if username = "admin" then "admin" else "user"

/-- `generateUserID` (src/api/auth.go lines 327-330) digests the username
together with the issuance instant (sha256 + base64 truncation, standard
library); modelled as an opaque deterministic function of the same
inputs — no claim depends on its internal structure. -/
def generateUserID (username : String) (now : Int) : String :=
  username ++ "#" ++ toString now

/-- The access-token claims built by `generateTokens` (src/api/auth.go
lines 262-272): role derived from the username, one-hour expiry,
issued-at and not-before `now`, fixed issuer. -/
def accessTokenClaims (username : String) (now : Int) : Claims :=
  { userID := generateUserID username now
    username := username
    role := getUserRole username
    iat := now
    exp := now + 3600
    nbf := now
    issuer := "whatsapp-api" }

/-- The refresh-token claims (lines 281-291): identical but with a 7-day
expiry. -/
def refreshTokenClaims (username : String) (now : Int) : Claims :=
  { accessTokenClaims username now with exp := now + 7 * 24 * 3600 }

/-- `generateTokens` from src/api/auth.go lines 259-300: sign the access
and refresh claims with the shared secret and report `expiresIn` of 3600
seconds. -/
def generateTokens (secret : List Nat) (username : String) (now : Int) :
    List Nat × List Nat × Int :=
  (mkToken secret (accessTokenClaims username now),
   mkToken secret (refreshTokenClaims username now), 3600)

/-- Validation outcome on a genuinely issued token: accepted exactly when
the signing secret is the validator's secret and `now` lies in the
validity window. -/
theorem validate_mkToken (secret secret2 : List Nat) (c : Claims) (now : Int) :
    validateJWTToken secret (mkToken secret2 c) now
      = if secret2 = secret then
          (if now < c.nbf then Except.error TokenError.notYetValid
           else if c.exp ≤ now then Except.error TokenError.expired
           else Except.ok c)
        else Except.error TokenError.invalidSignature := by
  unfold mkToken
  simp only [validateJWTToken]
  rw [List.take_left, List.drop_left]
  by_cases hsec : secret2 = secret
  · subst hsec
    rw [if_pos rfl, if_pos rfl, decodeClaims_encodeClaims]
  · rw [if_neg hsec, if_neg]
    intro heq
    exact hsec (hmacSha256_inj heq.symm).1.symm

theorem set_ne_of_getElem {l : List Nat} {j b : Nat} (hj : j < l.length)
    (hb : some b ≠ l[j]?) : l.set j b ≠ l := by
  intro heq
  apply hb
  have h1 : (l.set j b)[j]? = some b := List.getElem?_set_self hj
  rw [heq] at h1
  exact h1.symm

/-- Flipping any single byte of a genuinely signed token makes validation
fail with a signature error. -/
theorem validate_tampered (secret : List Nat) (c : Claims) (now : Int)
    (i b : Nat) (hi : i < (mkToken secret c).length)
    (hb : some b ≠ (mkToken secret c)[i]?) :
    validateJWTToken secret ((mkToken secret c).set i b) now
      = Except.error TokenError.invalidSignature := by
  set p := encodeClaims c with hp
  set tag := hmacSha256 secret p with htag
  have hmk : mkToken secret c = p.length :: (p ++ tag) := rfl
  rw [hmk] at hi hb ⊢
  have htaglen : tag.length = 1 + secret.length + p.length := by
    rw [htag]
    simp [hmacSha256]
    omega
  cases i with
  | zero =>
    have hbne : b ≠ p.length := by
      intro h0
      exact hb (by rw [h0]; rfl)
    have hset : (p.length :: (p ++ tag)).set 0 b = b :: (p ++ tag) := rfl
    rw [hset]
    simp only [validateJWTToken]
    rw [if_neg]
    intro heq
    have hlen := congrArg List.length heq
    simp only [List.length_drop, hmacSha256, List.length_cons, List.length_append,
      List.length_take] at hlen
    omega
  | succ j =>
    have hset : (p.length :: (p ++ tag)).set (j + 1) b
        = p.length :: (p ++ tag).set j b := rfl
    rw [hset]
    simp only [validateJWTToken]
    have hjlen : j < (p ++ tag).length := by
      simp only [List.length_cons] at hi
      omega
    by_cases hcase : j < p.length
    · have hsetapp : (p ++ tag).set j b = p.set j b ++ tag :=
        List.set_append_left j b hcase
      rw [hsetapp, List.take_left' (List.length_set p j b),
        List.drop_left' (List.length_set p j b)]
      rw [if_neg]
      intro heq
      have hpe : p = p.set j b := (hmacSha256_inj (htag ▸ heq)).2
      have hbj : some b ≠ p[j]? := by
        have h1 : (p.length :: (p ++ tag))[j + 1]? = p[j]? := by
          rw [List.getElem?_cons_succ, List.getElem?_append_left hcase]
        rw [← h1]
        exact hb
      exact set_ne_of_getElem hcase hbj hpe.symm
    · have hge : p.length ≤ j := Nat.le_of_not_lt hcase
      have hsetapp : (p ++ tag).set j b = p ++ tag.set (j - p.length) b :=
        List.set_append_right j b hge
      rw [hsetapp, List.take_left, List.drop_left]
      rw [if_neg]
      intro heq
      have hne2 : tag.set (j - p.length) b ≠ tag := by
        apply set_ne_of_getElem
        · simp only [List.length_append] at hjlen
          omega
        · have h1 : (p.length :: (p ++ tag))[j + 1]? = tag[j - p.length]? := by
            rw [List.getElem?_cons_succ, List.getElem?_append_right hge]
          rw [← h1]
          exact hb
      exact hne2 (heq.trans htag.symm)

/-- C1: for every validation instant, a token embedding claims and signed
with some secret is accepted exactly when that secret is the validator's
shared secret and `not-before ≤ now < expires-at`; every accepted token
string passes the signature check over the shared secret and the window
check; a token whose expiry is past is rejected despite a structurally
valid signature; and changing any single byte of a previously valid token
causes rejection with a signature error. -/
theorem validateJWTToken_correct (secret : List Nat) (now : Int) :
    (∀ (c : Claims) (secret2 : List Nat),
      (∃ c2, validateJWTToken secret (mkToken secret2 c) now = Except.ok c2)
        ↔ (secret2 = secret ∧ c.nbf ≤ now ∧ now < c.exp))
    ∧ (∀ (token : List Nat) (c : Claims),
        validateJWTToken secret token now = Except.ok c →
          (∃ n rest, token = n :: rest
            ∧ rest.drop n = hmacSha256 secret (rest.take n))
          ∧ c.nbf ≤ now ∧ now < c.exp)
    ∧ (∀ c c2 : Claims, c.exp ≤ now →
        validateJWTToken secret (mkToken secret c) now ≠ Except.ok c2)
    ∧ (∀ (c : Claims) (i b : Nat), i < (mkToken secret c).length →
        some b ≠ (mkToken secret c)[i]? →
        validateJWTToken secret ((mkToken secret c).set i b) now
          = Except.error TokenError.invalidSignature) := by
  refine ⟨?_, ?_, ?_, fun c i b hi hb => validate_tampered secret c now i b hi hb⟩
  · intro c secret2
    rw [validate_mkToken]
    constructor
    · rintro ⟨c2, hc2⟩
      by_cases hsec : secret2 = secret
      · rw [if_pos hsec] at hc2
        by_cases h1 : now < c.nbf
        · rw [if_pos h1] at hc2
          cases hc2
        · rw [if_neg h1] at hc2
          by_cases h2 : c.exp ≤ now
          · rw [if_pos h2] at hc2
            cases hc2
          · exact ⟨hsec, by omega, by omega⟩
      · rw [if_neg hsec] at hc2
        cases hc2
    · rintro ⟨hsec, h1, h2⟩
      rw [if_pos hsec, if_neg (by omega), if_neg (by omega)]
      exact ⟨c, rfl⟩
  · intro token c hok
    cases token with
    | nil => cases hok
    | cons n rest =>
      simp only [validateJWTToken] at hok
      by_cases hsig : rest.drop n = hmacSha256 secret (rest.take n)
      · rw [if_pos hsig] at hok
        split at hok
        · cases hok
        · rename_i c3 hdec
          by_cases h1 : now < c3.nbf
          · rw [if_pos h1] at hok
            cases hok
          · rw [if_neg h1] at hok
            by_cases h2 : c3.exp ≤ now
            · rw [if_pos h2] at hok
              cases hok
            · rw [if_neg h2] at hok
              cases hok
              exact ⟨⟨n, rest, rfl, hsig⟩, by omega, by omega⟩
      · rw [if_neg hsig] at hok
        cases hok
  · intro c c2 hexp
    rw [validate_mkToken, if_pos rfl]
    by_cases h1 : now < c.nbf
    · rw [if_pos h1]
      intro h
      cases h
    · rw [if_neg h1, if_pos hexp]
      intro h
      cases h

/-- Sample claims used to instantiate the token theorems. -/
def sampleClaims : Claims :=
  { userID := "u"
    username := "alice"
    role := "user"
    iat := 0
    exp := 100
    nbf := 0
    issuer := "whatsapp-api" }

/-- Witness for C1: with secret [1, 2] and claims valid on [0, 100), the
issued token is accepted at instant 50, rejected at instant 200 (expired),
and rejected with a signature error after flipping byte 2 to 999. -/
theorem validateJWTToken_correct_witness :
    (∃ c2, validateJWTToken [1, 2] (mkToken [1, 2] sampleClaims) 50
      = Except.ok c2)
    ∧ validateJWTToken [1, 2] (mkToken [1, 2] sampleClaims) 200
        ≠ Except.ok sampleClaims
    ∧ validateJWTToken [1, 2] ((mkToken [1, 2] sampleClaims).set 2 999) 50
        = Except.error TokenError.invalidSignature := by
  refine ⟨?_, ?_, ?_⟩
  · exact ((validateJWTToken_correct [1, 2] 50).1 sampleClaims [1, 2]).mpr
      ⟨rfl, by decide, by decide⟩
  · exact (validateJWTToken_correct [1, 2] 200).2.2.1 sampleClaims sampleClaims
      (by decide)
  · exact (validateJWTToken_correct [1, 2] 50).2.2.2 sampleClaims 2 999
      (by decide) (by decide)

/-- C5: validating a freshly issued access token within its validity
window returns exactly the claims embedded at issuance — same user id,
username, role, issued-at, expires-at, not-before and issuer. -/
theorem generateTokens_roundTrip (secret : List Nat) (username : String)
    (now t : Int) (h1 : now ≤ t) (h2 : t < now + 3600) :
    validateJWTToken secret (generateTokens secret username now).1 t
      = Except.ok
        { userID := generateUserID username now
          username := username
          role := getUserRole username
          iat := now
          exp := now + 3600
          nbf := now
          issuer := "whatsapp-api" } := by
  have hv := validate_mkToken secret secret (accessTokenClaims username now) t
  have hfst : (generateTokens secret username now).1
      = mkToken secret (accessTokenClaims username now) := rfl
  rw [hfst, hv, if_pos rfl,
    if_neg (show ¬ (t < (accessTokenClaims username now).nbf) by
      simp only [accessTokenClaims]
      omega),
    if_neg (show ¬ ((accessTokenClaims username now).exp ≤ t) by
      simp only [accessTokenClaims]
      omega)]
  rfl

/-- Witness for C5: issue for "alice" at time 0 with secret [7] and
validate at time 10. -/
theorem generateTokens_roundTrip_witness :
    validateJWTToken [7] (generateTokens [7] "alice" 0).1 10
      = Except.ok
        { userID := generateUserID "alice" 0
          username := "alice"
          role := getUserRole "alice"
          iat := 0
          exp := 0 + 3600
          nbf := 0
          issuer := "whatsapp-api" } :=
  generateTokens_roundTrip [7] "alice" 0 10 (by decide) (by decide)

/-- C9: the role embedded in issued claims is a deterministic function of
the username alone: "admin" yields the admin role and every other
username the user role. -/
theorem getUserRole_claims (now : Int) :
    (∀ username : String,
      (accessTokenClaims username now).role = getUserRole username)
    ∧ (accessTokenClaims "admin" now).role = "admin"
    ∧ (∀ username : String, username ≠ "admin" →
      (accessTokenClaims username now).role = "user") := by
  refine ⟨fun u => rfl, rfl, fun u hu => ?_⟩
  show getUserRole u = "user"
  unfold getUserRole
  rw [if_neg hu]

/-- Witness for C9: issuing for "admin" embeds role "admin"; issuing for
"alice" embeds role "user". -/
theorem getUserRole_claims_witness :
    (accessTokenClaims "admin" 0).role = "admin"
    ∧ (accessTokenClaims "alice" 0).role = "user" :=
  ⟨(getUserRole_claims 0).2.1, (getUserRole_claims 0).2.2 "alice" (by decide)⟩

/-! ## Authentication middleware (src/api/middleware.go, AuthMiddleware) -/

/-- Go `strings.TrimPrefix` on strings (drop the prefix when present,
else return the input unchanged), as used on the Authorization header. -/
def strTrimPre (pre s : String) : String :=
  if pre.data.isPrefixOf s.data then ⟨s.data.drop pre.data.length⟩ else s

/-- Outcome of the authentication guard: a finalized rejection response
(status and JSON error body) or the claims injected into the request
context. -/
inductive AuthOutcome where
  | rejected (status : Nat) (body : String)
  | passed (claims : Claims)
deriving DecidableEq

/-- `AuthMiddleware` from src/api/middleware.go lines 135-178, on the
Authorization header value (`""` when absent) at validation instant
`now`.  The three rejection paths use the Go sources' distinct bodies
"Authorization header required", "Invalid token format. Use Bearer token"
(apostrophes of the Go literal elided) and "Invalid or expired token". -/
def AuthMiddleware (secret : List Nat) (now : Int) (authHeader : String) :
    AuthOutcome :=
  if authHeader = "" then
    AuthOutcome.rejected 401 "Authorization header required"
  else
    if strTrimPre "Bearer " authHeader = authHeader then
      AuthOutcome.rejected 401 "Invalid token format. Use Bearer token"
    else
      match validateJWTToken secret
          (strBytes (strTrimPre "Bearer " authHeader)) now with
      | Except.error _ => AuthOutcome.rejected 401 "Invalid or expired token"
      | Except.ok c => AuthOutcome.passed c

/-- C6 counterexample: every rejection is a 401, but the error body is not
identical across rejection causes — a missing Authorization header and a
header without the Bearer scheme already produce two different bodies
(and a failing token a third). -/
theorem authMiddleware_uniform_body_cex :
    AuthMiddleware [1] 0 ""
      = AuthOutcome.rejected 401 "Authorization header required"
    ∧ AuthMiddleware [1] 0 "xyz"
      = AuthOutcome.rejected 401 "Invalid token format. Use Bearer token"
    ∧ ("Authorization header required" : String)
      ≠ "Invalid token format. Use Bearer token" := by
  refine ⟨by decide, by decide, by decide⟩

/-- C6 (amended): every rejection of the authentication guard carries HTTP
status 401, and all token-validation failures — bad signature, expired,
not yet valid or malformed alike — produce one identical body,
indistinguishable to the caller; but the missing-header and
malformed-header causes carry their own distinct bodies. -/
theorem authMiddleware_rejections (secret : List Nat) (now : Int) :
    (∀ (h : String) (st : Nat) (b : String),
      AuthMiddleware secret now h = AuthOutcome.rejected st b → st = 401)
    ∧ (∀ t : String,
        (∃ e, validateJWTToken secret (strBytes t) now = Except.error e) →
        AuthMiddleware secret now ("Bearer " ++ t)
          = AuthOutcome.rejected 401 "Invalid or expired token") := by
  constructor
  · intro h st b hres
    unfold AuthMiddleware at hres
    by_cases h1 : h = ""
    · rw [if_pos h1] at hres
      cases hres
      rfl
    · rw [if_neg h1] at hres
      by_cases h2 : strTrimPre "Bearer " h = h
      · rw [if_pos h2] at hres
        cases hres
        rfl
      · rw [if_neg h2] at hres
        cases hval : validateJWTToken secret (strBytes (strTrimPre "Bearer " h)) now with
        | error e =>
          rw [hval] at hres
          cases hres
          rfl
        | ok c =>
          rw [hval] at hres
          cases hres
  · rintro t ⟨e, he⟩
    have hdata : ("Bearer " ++ t).data = "Bearer ".data ++ t.data := rfl
    have hne : ("Bearer " ++ t) ≠ "" := by
      intro h0
      have h2 := congrArg String.data h0
      rw [hdata] at h2
      cases h2
    have htrim : strTrimPre "Bearer " ("Bearer " ++ t) = t := by
      unfold strTrimPre
      rw [if_pos (by
        rw [hdata]
        exact List.isPrefixOf_iff_prefix.mpr ⟨t.data, rfl⟩)]
      rw [hdata, List.drop_left]
    have hneq : strTrimPre "Bearer " ("Bearer " ++ t) ≠ ("Bearer " ++ t) := by
      rw [htrim]
      intro h0
      have h2 : t.data.length = ("Bearer " ++ t).data.length :=
        congrArg (fun s => s.data.length) h0
      rw [hdata] at h2
      simp at h2
      omega
    unfold AuthMiddleware
    rw [if_neg hne, if_neg hneq, htrim, he]

/-- Witness for C6 (amended): a Bearer token that fails validation is
rejected with the uniform validation-failure body. -/
theorem authMiddleware_rejections_witness :
    AuthMiddleware [1] 0 ("Bearer " ++ "bad")
      = AuthOutcome.rejected 401 "Invalid or expired token" :=
  (authMiddleware_rejections [1] 0).2 "bad"
    ⟨TokenError.invalidSignature, rfl⟩
